import Mathlib

/-!
Verification development for `sentry.web.frontend.projects` (Django view
functions managing projects: creation, removal/merge, editing, and plugin
configuration).

The views are shallowly embedded: each external collaborator (permission
functions, forms, the plugin registry, the ORM) is modelled by explicit
inputs or by small executable definitions, and the database is a list of
project rows. The view functions themselves are translated line by line
from `src/sentry/web/frontend/projects.py`.
-/

set_option linter.unusedVariables false

namespace SentryProjects

/-- A row of the `Project` model. `owner` is a nullable user foreign key,
mirrored as `Option Nat` (a user id); `status` is the integer status enum
(0 = active, 1 = disabled). -/
structure Project where
  id : Nat
  name : String
  slug : String
  owner : Option Nat
  team : Nat
  status : Nat
  deriving DecidableEq, Repr

/-- The requesting user, together with the results of the external
permission queries the views make about them:
`canCreateProjects` is `sentry.permissions.can_create_projects(user)`,
`hasPermAddProject` is `user.has_perm('sentry.can_add_project')`,
`hasPermChangeProject` is `user.has_perm('sentry.can_change_project')`,
and `isSuperuser` is `user.is_superuser`. -/
structure User where
  id : Nat
  username : String
  isSuperuser : Bool
  canCreateProjects : Bool
  hasPermAddProject : Bool
  hasPermChangeProject : Bool
  deriving DecidableEq, Repr

/-- What a rendered template receives from the pieces of context we track:
whether the target project is in the context, and whether a bound form is. -/
structure RenderCtx where
  project : Option Project
  hasForm : Bool
  deriving DecidableEq, Repr

/-- An HTTP response: a redirect to a URL, or a rendered template. -/
inductive HttpResponse where
  | redirect (url : String)
  | render (template : String) (ctx : RenderCtx)
  deriving DecidableEq, Repr

/-- How a view call ends: with a response, or with an uncaught exception
(`raised` carries the exception argument, e.g. the `ValueError` mode). -/
inductive ViewOutcome where
  | response (r : HttpResponse)
  | raised (msg : String)
  deriving DecidableEq, Repr

/-- Database side effects a view performs, recorded for framing claims. -/
inductive Effect where
  | deleted (p : Project)
  | mergedInto (source : Project) (target : Project)
  | statusSet (projectId : Nat) (status : Nat)
  | projectSaved (p : Project)
  deriving DecidableEq, Repr

/-- The result of a view call: its outcome, the database afterwards, and
the list of mutations it performed. -/
structure ViewResult where
  outcome : ViewOutcome
  db : List Project
  effects : List Effect
  deriving DecidableEq, Repr

/-- `django.core.urlresolvers.reverse`: resolves a named route (with
positional arguments) to a URL. Modelled as the route name with the
arguments appended as path segments. -/
def reverse (route : String) (args : List Nat) : String :=
  "/" ++ route ++ String.join (args.map (fun a => "/" ++ toString a))

/-- `new_project` (projects.py lines 43-71). The two form classes
(`NewProjectAdminForm` for users with the add-project permission,
`NewProjectForm` otherwise) are external; both validate the POST data into
a draft `Project` built by `form.save(commit=False)`, so the form outcome
is the input `formResult`: `some draft` when `form.is_valid()` and the
draft row, `none` when invalid. The view: users without create permission
are redirected to the `sentry` route; on a valid form the draft's owner is
set to the requesting user when the form left it null, the row is saved,
and the view redirects to the new project's management page; otherwise the
`new.html` template is rendered with the bound form. -/
def new_project (user : User) (formResult : Option Project)
    (db : List Project) : ViewResult :=
  if !user.canCreateProjects then
    ⟨.response (.redirect (reverse "sentry" [])), db, []⟩
  else
    match formResult with
    | some draft =>
      let project :=
        if draft.owner.isNone then { draft with owner := some user.id }
        else draft
      ⟨.response (.redirect (reverse "sentry-manage-project" [project.id])),
        db ++ [project], [.projectSaved project]⟩
    | none =>
      ⟨.response (.render "sentry/projects/new.html" ⟨none, true⟩), db, []⟩

/-! ## remove_project -/

/-- The raw POST data the removal form is bound to: the selected
`removal_type` value and the selected merge-target project choice. -/
structure RemovePost where
  removal_type : String
  project_id : Option Nat
  deriving DecidableEq, Repr

/-- `form.cleaned_data` of a valid removal form: the cleaned
`removal_type` string and, under the `project` key, the resolved merge
target when one was selected. -/
structure RemoveCleaned where
  removal_type : String
  project : Option Project
  deriving DecidableEq, Repr

/-- Modelled from the spec: `RemoveProjectForm` lives in
`sentry.web.forms`, which is not part of this excerpt. Per the spec, the
removal mode is "selected by form field" and mode "2" merges the project
"into a selected other project", the selection being made from the project
list the view constructs the form with. A valid submission therefore
yields the posted removal type and, when the mode is "2", a merge target
resolved against the supplied candidate list (an unresolvable or missing
selection makes the form invalid). -/
def removeProjectFormValidate (candidates : List Project)
    (post : RemovePost) : Option RemoveCleaned :=
  if post.removal_type == "2" then
    match post.project_id with
    | some pid =>
      match candidates.find? (fun p => p.id == pid) with
      | some target => some ⟨post.removal_type, some target⟩
      | none => none
    | none => none
  else
    some ⟨post.removal_type, none⟩

/-- `project.delete()`: the row is removed from the database. -/
def deleteProject (project : Project) (db : List Project) : List Project :=
  db.filter (fun p => p.id != project.id)

/-- Modelled from the spec: `Project.merge_to` is defined in
`sentry.models`, outside this excerpt. Per the spec, merging moves the
source project's data into the target and the source "ceases to exist as
a standalone entity"; the database effect on the rows we track is the
removal of the source row. -/
def mergeTo (source : Project) (db : List Project) : List Project :=
  db.filter (fun p => p.id != source.id)

/-- `project.update(status=1)`: updates the project's row in place,
setting only the given status field. -/
def updateStatus (project : Project) (status : Nat)
    (db : List Project) : List Project :=
  db.map (fun p => if p.id == project.id then { p with status := status } else p)

/-- `remove_project` (projects.py lines 74-108). Inputs model the
external collaborators: `defaultId` is `settings.PROJECT` (the designated
default project id), `canRemove` is
`sentry.permissions.can_remove_project(user, project)`, `userProjects`
are the values of `get_project_list(request.user)`, and `post` is
`request.POST or None` (`none` on a GET, leaving the form unbound and
invalid). The view: the default project is immediately redirected away
from; a user without remove permission is redirected to `sentry`; the
form is built over the user's projects with the target filtered out
(Django model equality is primary-key equality); a valid form dispatches
on the cleaned removal type — `'1'` deletes the row, `'2'` merges into
the selected project (`cleaned_data['project']`; a missing key raises),
`'3'` sets the status field to 1, anything else raises
`ValueError(removal_type)` — and redirects to the project list; an
invalid form renders `remove.html` with the bound form and project. -/
def remove_project (defaultId : Nat) (user : User) (canRemove : Bool)
    (userProjects : List Project) (post : Option RemovePost)
    (project : Project) (db : List Project) : ViewResult :=
  if toString project.id == toString defaultId then
    ⟨.response (.redirect (reverse "sentry-project-list" [])), db, []⟩
  else if !canRemove then
    ⟨.response (.redirect (reverse "sentry" [])), db, []⟩
  else
    match post.bind (removeProjectFormValidate
        (userProjects.filter (fun x => x.id != project.id))) with
    | some cleaned =>
      if cleaned.removal_type == "1" then
        ⟨.response (.redirect (reverse "sentry-project-list" [])),
          deleteProject project db, [.deleted project]⟩
      else if cleaned.removal_type == "2" then
        match cleaned.project with
        | some target =>
          ⟨.response (.redirect (reverse "sentry-project-list" [])),
            mergeTo project db, [.mergedInto project target]⟩
        | none => ⟨.raised "KeyError: project", db, []⟩
      else if cleaned.removal_type == "3" then
        ⟨.response (.redirect (reverse "sentry-project-list" [])),
          updateStatus project 1 db, [.statusSet project.id 1]⟩
      else
        ⟨.raised cleaned.removal_type, db, []⟩
    | none =>
      ⟨.response (.render "sentry/projects/remove.html" ⟨some project, true⟩),
        db, []⟩

/-! ## manage_project -/

/-- `manage_project` (projects.py lines 111-137). `hasPermHook` is the
result of `plugins.first('has_perm', user, 'edit_project', project)`
(`none` when no plugin answered); `editResult` models the external
`EditProjectForm` bound to the project instance: `some saved` when
`form.is_valid()`, carrying the instance `form.save()` persists and
returns, `none` when invalid. The view: when the hook answered `False`
and the user lacks the change-project permission, redirect to `sentry`;
on a valid form, save it and redirect to the request path with
`?success=1` appended; otherwise render `manage.html` with the bound form
and the project. -/
def manage_project (user : User) (hasPermHook : Option Bool)
    (editResult : Option Project) (requestPath : String)
    (project : Project) (db : List Project) : ViewResult :=
  if hasPermHook == some false && !user.hasPermChangeProject then
    ⟨.response (.redirect (reverse "sentry" [])), db, []⟩
  else
    match editResult with
    | some saved =>
      ⟨.response (.redirect (requestPath ++ "?success=1")),
        db.map (fun p => if p.id == saved.id then saved else p),
        [.projectSaved saved]⟩
    | none =>
      ⟨.response (.render "sentry/projects/manage.html" ⟨some project, true⟩),
        db, []⟩

/-! ## Plugin views -/

/-- A registered plugin, with the answers it gives the views for the
project at hand: `isEnabled` is `plugin.is_enabled(project)`,
`hasProjectConfForm` records whether `plugin.project_conf_form` is not
`None`, `canEnableForProjects` is `plugin.can_enable_for_projects()`, and
`title` is `plugin.get_title()`. -/
structure Plugin where
  slug : String
  title : String
  isEnabled : Bool
  hasProjectConfForm : Bool
  canEnableForProjects : Bool
  deriving DecidableEq, Repr

/-- `configure_project_plugin` (projects.py lines 140-173).
`pluginLookup` is the result of `plugins.get(slug)` (`none` when the
registry raises `KeyError`); `hasPermHook` is
`plugins.first('has_perm', user, 'configure_project_plugin', project,
plugin)`; `configAction` is the action returned by
`plugin_config(plugin, project, request)`. The view performs no database
mutation: a missing plugin, a plugin not enabled for the project, or a
plugin without a configuration form redirect to the project's management
page; a failed permission check redirects to `sentry`; a `redirect`
action from the plugin's own handling redirects to the request path with
`?success=1`; otherwise the configure template is rendered. -/
def configure_project_plugin (user : User) (hasPermHook : Option Bool)
    (pluginLookup : Option Plugin) (configAction : String)
    (requestPath : String) (project : Project) : ViewOutcome :=
  match pluginLookup with
  | none =>
    .response (.redirect (reverse "sentry-manage-project" [project.id]))
  | some plugin =>
    if !plugin.isEnabled then
      .response (.redirect (reverse "sentry-manage-project" [project.id]))
    else if hasPermHook == some false && !user.isSuperuser then
      .response (.redirect (reverse "sentry" []))
    else if !plugin.hasProjectConfForm then
      .response (.redirect (reverse "sentry-manage-project" [project.id]))
    else if configAction == "redirect" then
      .response (.redirect (requestPath ++ "?success=1"))
    else
      .response (.render "sentry/projects/plugins/configure.html"
        ⟨some project, false⟩)

/-- The per-project option store the plugin views mutate: an association
list from plugin slug to the value of that plugin's `enabled` option for
the project. -/
abbrev OptionStore := List (String × Bool)

/-- `plugin.get_option('enabled', project)` on our store: the most recent
value set for the slug, if any. -/
def lookupOption (slug : String) (opts : OptionStore) : Option Bool :=
  (List.find? (fun kv => kv.1 == slug) opts).map (fun kv => kv.2)

/-- `plugin.set_option('enabled', value, project)`: records the value for
the plugin's slug, replacing any previous entry. -/
def setOption (slug : String) (value : Bool) (opts : OptionStore) :
    OptionStore :=
  (slug, value) :: List.filter (fun kv => kv.1 != slug) opts

/-- The `for plugin in plugins.all()` loop of `manage_plugins`: for every
plugin that can be enabled per project, set its `enabled` option to
whether its slug appears among the submitted values. -/
def applyToggles (enabled : List String) (plugins : List Plugin)
    (opts : OptionStore) : OptionStore :=
  plugins.foldl
    (fun acc plugin =>
      if plugin.canEnableForProjects then
        setOption plugin.slug (enabled.contains plugin.slug) acc
      else acc) opts

/-- The result of `manage_plugins`: the outcome together with the option
store after the view ran. -/
structure PluginsViewResult where
  outcome : ViewOutcome
  options : OptionStore
  deriving DecidableEq, Repr

/-- `manage_plugins` (projects.py lines 176-197). `hasPermHook` is
`plugins.first('has_perm', user, 'configure_project_plugin', project)`;
`allPlugins` is `plugins.all()`; `postPlugins` is `none` when
`request.POST` is falsy and otherwise `request.POST.getlist('plugin')`.
The view: a failed permission check redirects to `sentry`; on a POST it
walks every registered plugin and, for those that can be enabled per
project, sets the `enabled` option to whether the plugin's slug was
among the submitted `plugin` values, then redirects to the request path
with `?success=1`; otherwise the plugin list template is rendered. -/
def manage_plugins (user : User) (hasPermHook : Option Bool)
    (allPlugins : List Plugin) (postPlugins : Option (List String))
    (requestPath : String) (project : Project)
    (opts : OptionStore) : PluginsViewResult :=
  if hasPermHook == some false && !user.hasPermChangeProject then
    ⟨.response (.redirect (reverse "sentry" [])), opts⟩
  else
    match postPlugins with
    | some enabled =>
      ⟨.response (.redirect (requestPath ++ "?success=1")),
        applyToggles enabled allPlugins opts⟩
    | none =>
      ⟨.response (.render "sentry/projects/plugins/list.html"
        ⟨some project, false⟩), opts⟩

/-! ## Concrete fixtures used by the witnesses -/

/-- A user who may create projects but holds no admin permissions. -/
def uAlice : User := ⟨1, "alice", false, true, false, true⟩

/-- A user denied project creation and every admin permission. -/
def uBob : User := ⟨2, "bob", false, false, false, false⟩

/-- An existing project row owned by `uAlice`. -/
def pAlpha : Project := ⟨10, "alpha", "alpha", some 1, 1, 0⟩

/-- An existing project row with no owner. -/
def pBeta : Project := ⟨20, "beta", "beta", none, 1, 0⟩

/-- A draft project as produced by the new-project form, owner left null. -/
def draftGamma : Project := ⟨30, "gamma", "gamma", none, 3, 0⟩

/-! ## Theorems -/

/-- C1: for every request by a user for whom `can_create_projects` is
false, `new_project` returns a redirect to the default landing route
`sentry`, and no project is persisted: the result does not depend on the
form at all, the database is unchanged, and no effect is recorded. -/
theorem new_project_denied_redirects (user : User)
    (h : user.canCreateProjects = false)
    (formResult : Option Project) (db : List Project) :
    new_project user formResult db =
      ⟨.response (.redirect (reverse "sentry" [])), db, []⟩ := by
  simp [new_project, h]

theorem new_project_denied_redirects_witness :
    new_project uBob (some draftGamma) [pAlpha] =
      ⟨.response (.redirect (reverse "sentry" [])), [pAlpha], []⟩ :=
  new_project_denied_redirects uBob rfl (some draftGamma) [pAlpha]

/-- C5: for every valid new-project form submission by a permitted user,
`new_project` persists exactly the draft row, with the owner set to the
requesting user when the form left it absent and the form's owner kept
otherwise, and redirects to the management page of the new project. -/
theorem new_project_valid_saves (user : User) (draft : Project)
    (db : List Project) (hperm : user.canCreateProjects = true) :
    (∀ saved,
      saved = (if draft.owner.isNone then { draft with owner := some user.id }
               else draft) →
      new_project user (some draft) db =
        ⟨.response (.redirect (reverse "sentry-manage-project" [saved.id])),
          db ++ [saved], [.projectSaved saved]⟩ ∧
      (draft.owner = none → saved.owner = some user.id) ∧
      (∀ o, draft.owner = some o → saved.owner = some o)) := by
  intro saved hsaved
  subst hsaved
  refine ⟨by simp [new_project, hperm], ?_, ?_⟩
  · intro h
    simp [h]
  · intro o h
    simp [h]

theorem new_project_valid_saves_witness :
    uAlice.canCreateProjects = true ∧
    (new_project uAlice (some draftGamma) [pAlpha] =
      ⟨.response (.redirect (reverse "sentry-manage-project" [30])),
        [pAlpha, { draftGamma with owner := some 1 }],
        [.projectSaved { draftGamma with owner := some 1 }]⟩ ∧
      (draftGamma.owner = none →
        ({ draftGamma with owner := some 1 } : Project).owner = some 1) ∧
      (∀ o, draftGamma.owner = some o →
        ({ draftGamma with owner := some 1 } : Project).owner = some o)) :=
  ⟨rfl, new_project_valid_saves uAlice draftGamma [pAlpha] rfl
    { draftGamma with owner := some 1 } (by decide)⟩

/-- C4: whenever the target project's id equals the configured default
project id (`settings.PROJECT`), `remove_project` immediately redirects to
the project list and performs no mutation, for every permission outcome
and every submitted form. -/
theorem remove_project_default_guard (defaultId : Nat) (user : User)
    (canRemove : Bool) (userProjects : List Project)
    (post : Option RemovePost) (project : Project) (db : List Project)
    (h : project.id = defaultId) :
    remove_project defaultId user canRemove userProjects post project db =
      ⟨.response (.redirect (reverse "sentry-project-list" [])), db, []⟩ := by
  simp [remove_project, h]

theorem remove_project_default_guard_witness :
    remove_project 10 uBob false [] (some ⟨"1", none⟩) pAlpha [pAlpha] =
      ⟨.response (.redirect (reverse "sentry-project-list" [])),
        [pAlpha], []⟩ :=
  remove_project_default_guard 10 uBob false [] (some ⟨"1", none⟩) pAlpha
    [pAlpha] rfl

/-- C6: for every invalid edit-form submission to `manage_project` by an
authorized user (the permission guard does not fire), the view renders the
manage template with the bound form and the original project in the
context; the database is unchanged and no save effect is recorded. -/
theorem manage_project_invalid_renders (user : User)
    (hasPermHook : Option Bool) (requestPath : String) (project : Project)
    (db : List Project)
    (hauth : (hasPermHook == some false && !user.hasPermChangeProject)
      = false) :
    manage_project user hasPermHook none requestPath project db =
      ⟨.response (.render "sentry/projects/manage.html" ⟨some project, true⟩),
        db, []⟩ := by
  simp [manage_project, hauth]

theorem manage_project_invalid_renders_witness :
    manage_project uAlice (some false) none "/manage/10" pAlpha [pAlpha] =
      ⟨.response (.render "sentry/projects/manage.html" ⟨some pAlpha, true⟩),
        [pAlpha], []⟩ :=
  manage_project_invalid_renders uAlice (some false) "/manage/10" pAlpha
    [pAlpha] (by decide)

/-- C8: for every valid edit-form submission to `manage_project` by an
authorized user, the view saves the form (the project's row is replaced by
the saved instance) and redirects to the request path with `?success=1`
appended. -/
theorem manage_project_valid_saves (user : User) (hasPermHook : Option Bool)
    (saved : Project) (requestPath : String) (project : Project)
    (db : List Project)
    (hauth : (hasPermHook == some false && !user.hasPermChangeProject)
      = false) :
    manage_project user hasPermHook (some saved) requestPath project db =
      ⟨.response (.redirect (requestPath ++ "?success=1")),
        db.map (fun p => if p.id == saved.id then saved else p),
        [.projectSaved saved]⟩ := by
  simp [manage_project, hauth]

theorem manage_project_valid_saves_witness :
    manage_project uAlice none (some { pAlpha with name := "alpha2" })
        "/manage/10" pAlpha [pAlpha, pBeta] =
      ⟨.response (.redirect "/manage/10?success=1"),
        [{ pAlpha with name := "alpha2" }, pBeta],
        [.projectSaved { pAlpha with name := "alpha2" }]⟩ := by
  have h := manage_project_valid_saves uAlice none
    { pAlpha with name := "alpha2" } "/manage/10" pAlpha [pAlpha, pBeta]
    (by decide)
  simpa using h

/-- C7: when no plugin is registered under the slug, or the plugin found
is not enabled for the project, `configure_project_plugin` redirects to
the project's management page and raises nothing; the result does not
depend on the permission inputs or the plugin's form handling, so neither
is reached. -/
theorem configure_plugin_missing_or_disabled_redirects (user : User)
    (hasPermHook : Option Bool) (pluginLookup : Option Plugin)
    (configAction requestPath : String) (project : Project)
    (h : pluginLookup = none ∨
      ∃ plugin, pluginLookup = some plugin ∧ plugin.isEnabled = false) :
    configure_project_plugin user hasPermHook pluginLookup configAction
        requestPath project =
      .response (.redirect (reverse "sentry-manage-project" [project.id])) := by
  rcases h with h | ⟨plugin, h, hen⟩
  · subst h
    simp [configure_project_plugin]
  · subst h
    simp [configure_project_plugin, hen]

theorem configure_plugin_missing_or_disabled_redirects_witness :
    configure_project_plugin uBob none
        (some ⟨"mail", "Mail", false, true, true⟩) "render" "/plugins/mail"
        pAlpha =
      .response (.redirect (reverse "sentry-manage-project" [10])) := by
  have h := configure_plugin_missing_or_disabled_redirects uBob none
    (some ⟨"mail", "Mail", false, true, true⟩) "render" "/plugins/mail"
    pAlpha (Or.inr ⟨⟨"mail", "Mail", false, true, true⟩, rfl, rfl⟩)
  simpa using h

/-- C2: in `remove_project`, when the guards pass and the removal form is
valid but its cleaned removal type is none of "1", "2", "3", the view
raises `ValueError(removal_type)` instead of returning a response, and the
database is untouched with no effect recorded. -/
theorem remove_project_unknown_mode_raises (defaultId : Nat) (user : User)
    (canRemove : Bool) (userProjects : List Project) (post : RemovePost)
    (project : Project) (db : List Project) (cleaned : RemoveCleaned)
    (hdef : (toString project.id == toString defaultId) = false)
    (hrem : canRemove = true)
    (hform : removeProjectFormValidate
      (userProjects.filter (fun x => x.id != project.id)) post
      = some cleaned)
    (h1 : cleaned.removal_type ≠ "1") (h2 : cleaned.removal_type ≠ "2")
    (h3 : cleaned.removal_type ≠ "3") :
    remove_project defaultId user canRemove userProjects (some post)
        project db =
      ⟨.raised cleaned.removal_type, db, []⟩ := by
  simp [remove_project, hdef, hrem, hform, h1, h2, h3]

theorem remove_project_unknown_mode_raises_witness :
    remove_project 1 uAlice true [pAlpha, pBeta] (some ⟨"4", none⟩) pAlpha
        [pAlpha, pBeta] =
      ⟨.raised "4", [pAlpha, pBeta], []⟩ := by
  have h := remove_project_unknown_mode_raises 1 uAlice true [pAlpha, pBeta]
    ⟨"4", none⟩ pAlpha [pAlpha, pBeta] ⟨"4", none⟩ (by decide) rfl
    (by decide) (by decide) (by decide) (by decide)
  simpa using h

/-- C3: for every valid removal-form submission whose cleaned removal type
is "3" (guards passing), `remove_project` updates the project's row to
status 1 and redirects to the project list; the row count is preserved,
the row with the project's id survives with only its status changed, and
every other row is untouched. -/
theorem remove_project_mode3_disables (defaultId : Nat) (user : User)
    (canRemove : Bool) (userProjects : List Project) (post : RemovePost)
    (project : Project) (db : List Project) (cleaned : RemoveCleaned)
    (hdef : (toString project.id == toString defaultId) = false)
    (hrem : canRemove = true)
    (hform : removeProjectFormValidate
      (userProjects.filter (fun x => x.id != project.id)) post
      = some cleaned)
    (h3 : cleaned.removal_type = "3") :
    remove_project defaultId user canRemove userProjects (some post)
        project db =
      ⟨.response (.redirect (reverse "sentry-project-list" [])),
        updateStatus project 1 db, [.statusSet project.id 1]⟩ ∧
    (updateStatus project 1 db).length = db.length ∧
    (∀ p ∈ db, p.id = project.id →
      { p with status := 1 } ∈ updateStatus project 1 db) ∧
    (∀ p ∈ db, p.id ≠ project.id → p ∈ updateStatus project 1 db) := by
  refine ⟨by simp [remove_project, hdef, hrem, hform, h3], ?_, ?_, ?_⟩
  · simp [updateStatus]
  · intro p hp hid
    have : ({ p with status := 1 } : Project) =
        (fun q => if q.id == project.id then { q with status := 1 } else q)
          p := by
      simp [hid]
    rw [this]
    exact List.mem_map_of_mem _ hp
  · intro p hp hid
    have : p =
        (fun q => if q.id == project.id then { q with status := 1 } else q)
          p := by
      simp [hid]
    rw [this]
    exact List.mem_map_of_mem _ hp

theorem remove_project_mode3_disables_witness :
    remove_project 1 uAlice true [pAlpha, pBeta] (some ⟨"3", none⟩) pAlpha
        [pAlpha, pBeta] =
      ⟨.response (.redirect (reverse "sentry-project-list" [])),
        updateStatus pAlpha 1 [pAlpha, pBeta], [.statusSet pAlpha.id 1]⟩ ∧
    (updateStatus pAlpha 1 [pAlpha, pBeta]).length
      = ([pAlpha, pBeta] : List Project).length ∧
    (∀ p ∈ [pAlpha, pBeta], p.id = pAlpha.id →
      { p with status := 1 } ∈ updateStatus pAlpha 1 [pAlpha, pBeta]) ∧
    (∀ p ∈ [pAlpha, pBeta], p.id ≠ pAlpha.id →
      p ∈ updateStatus pAlpha 1 [pAlpha, pBeta]) :=
  remove_project_mode3_disables 1 uAlice true [pAlpha, pBeta]
    ⟨"3", none⟩ pAlpha [pAlpha, pBeta] ⟨"3", none⟩ (by decide) rfl
    (by decide) rfl

/-- A valid removal form only ever resolves a merge target from the
candidate list it was constructed with. -/
theorem removeProjectFormValidate_target_mem (candidates : List Project)
    (post : RemovePost) (cleaned : RemoveCleaned) (target : Project)
    (hv : removeProjectFormValidate candidates post = some cleaned)
    (ht : cleaned.project = some target) :
    target ∈ candidates := by
  unfold removeProjectFormValidate at hv
  split at hv
  · split at hv
    · split at hv
      · rename_i tgt hfind
        have hcl : cleaned = ⟨post.removal_type, some tgt⟩ :=
          (Option.some.inj hv).symm
        rw [hcl] at ht
        rw [← Option.some.inj ht]
        exact List.mem_of_find?_eq_some hfind
      · exact absurd hv (by simp)
    · exact absurd hv (by simp)
  · have hcl : cleaned = ⟨post.removal_type, none⟩ :=
      (Option.some.inj hv).symm
    rw [hcl] at ht
    exact absurd ht (by simp)

/-- C9: whatever the inputs, whenever `remove_project` records a merge
effect, the merge target is one of the user's projects and its id differs
from the project being removed, because the candidate list the form was
built over is the user's project list with the removed project filtered
out. -/
theorem remove_project_merge_target (defaultId : Nat) (user : User)
    (canRemove : Bool) (userProjects : List Project)
    (post : Option RemovePost) (project : Project) (db : List Project)
    (s t : Project)
    (h : Effect.mergedInto s t ∈
      (remove_project defaultId user canRemove userProjects post project
        db).effects) :
    t ∈ userProjects ∧ t.id ≠ project.id := by
  unfold remove_project at h
  split at h
  · exact absurd h (by simp)
  split at h
  · exact absurd h (by simp)
  cases post with
  | none => exact absurd h (by simp)
  | some p =>
    simp only [Option.bind] at h
    split at h
    · rename_i cleaned heq
      split at h
      · exact absurd h (by simp)
      split at h
      · split at h
        · rename_i target heq2
          simp only [List.mem_singleton, Effect.mergedInto.injEq] at h
          obtain ⟨hs, htg⟩ := h
          subst htg
          have hmem := removeProjectFormValidate_target_mem _ p cleaned
            t heq heq2
          rw [List.mem_filter] at hmem
          refine ⟨hmem.1, ?_⟩
          simpa using hmem.2
        · exact absurd h (by simp)
      split at h
      · exact absurd h (by simp)
      · exact absurd h (by simp)
    · exact absurd h (by simp)

theorem remove_project_merge_target_witness :
    Effect.mergedInto pAlpha pBeta ∈
      (remove_project 1 uAlice true [pAlpha, pBeta] (some ⟨"2", some 20⟩)
        pAlpha [pAlpha, pBeta]).effects ∧
    pBeta ∈ [pAlpha, pBeta] ∧ pBeta.id ≠ pAlpha.id :=
  ⟨by decide,
    remove_project_merge_target 1 uAlice true [pAlpha, pBeta]
      (some ⟨"2", some 20⟩) pAlpha [pAlpha, pBeta] pAlpha pBeta (by decide)⟩

/-- Setting an option makes it the looked-up value. -/
theorem lookupOption_setOption_self (slug : String) (v : Bool)
    (opts : OptionStore) :
    lookupOption slug (setOption slug v opts) = some v := by
  simp [lookupOption, setOption]

/-- `find?` ignores a `filter` whose predicate covers the search
predicate. -/
theorem find?_filter_of_imp {α} (p q : α → Bool) (l : List α)
    (h : ∀ x, p x = true → q x = true) :
    List.find? p (l.filter q) = List.find? p l := by
  induction l with
  | nil => rfl
  | cons a l ih =>
    by_cases hq : q a = true
    · rw [List.filter_cons_of_pos hq]
      by_cases hp : p a = true
      · rw [List.find?_cons_of_pos _ hp, List.find?_cons_of_pos _ hp]
      · rw [List.find?_cons_of_neg _ hp, List.find?_cons_of_neg _ hp, ih]
    · rw [List.filter_cons_of_neg (by simpa using hq)]
      have hp : ¬p a = true := fun hpa => hq (h a hpa)
      rw [List.find?_cons_of_neg _ hp, ih]

/-- Setting one plugin's option leaves every other slug's value alone. -/
theorem lookupOption_setOption_ne (s u : String) (v : Bool)
    (opts : OptionStore) (h : s ≠ u) :
    lookupOption s (setOption u v opts) = lookupOption s opts := by
  unfold lookupOption setOption
  rw [List.find?_cons_of_neg _ (by simp [h.symm]),
    find?_filter_of_imp _ _ opts
      (fun kv hkv => by
        simp only [beq_iff_eq] at hkv
        simp [hkv, h])]

/-- The `manage_plugins` loop does not touch a slug no togglable plugin
carries. -/
theorem applyToggles_frame (enabled : List String) (plugins : List Plugin)
    (opts : OptionStore) (s : String)
    (h : ∀ q ∈ plugins, q.canEnableForProjects = true → q.slug ≠ s) :
    lookupOption s (applyToggles enabled plugins opts)
      = lookupOption s opts := by
  revert h
  induction plugins generalizing opts with
  | nil => intro h; rfl
  | cons q rest ih =>
    intro h
    have hrest : ∀ r ∈ rest, r.canEnableForProjects = true → r.slug ≠ s :=
      fun r hr => h r (List.mem_cons_of_mem q hr)
    by_cases hq : q.canEnableForProjects = true
    · have hne : s ≠ q.slug :=
        fun e => (h q (List.mem_cons_self q rest) hq) e.symm
      have hstep : applyToggles enabled (q :: rest) opts
          = applyToggles enabled rest
              (setOption q.slug (enabled.contains q.slug) opts) := by
        simp [applyToggles, hq]
      rw [hstep, ih _ hrest,
        lookupOption_setOption_ne s q.slug _ opts hne]
    · have hstep : applyToggles enabled (q :: rest) opts
          = applyToggles enabled rest opts := by
        simp [applyToggles, hq]
      rw [hstep, ih _ hrest]

/-- The `manage_plugins` loop sets a togglable plugin's `enabled` option
to whether its slug was submitted, provided registry slugs are distinct. -/
theorem applyToggles_sets (enabled : List String) (plugins : List Plugin)
    (opts : OptionStore) (p : Plugin)
    (hnodup : (plugins.map Plugin.slug).Nodup)
    (hp : p ∈ plugins) (hcan : p.canEnableForProjects = true) :
    lookupOption p.slug (applyToggles enabled plugins opts)
      = some (enabled.contains p.slug) := by
  revert hnodup hp
  induction plugins generalizing opts with
  | nil => intro _ hp; exact absurd hp (by simp)
  | cons q rest ih =>
    intro hnodup hp
    have hnd : (∀ x ∈ rest, ¬x.slug = q.slug)
        ∧ (rest.map Plugin.slug).Nodup := by
      simpa using hnodup
    rcases List.mem_cons.mp hp with rfl | hp'
    · have hstep : applyToggles enabled (p :: rest) opts
          = applyToggles enabled rest
              (setOption p.slug (enabled.contains p.slug) opts) := by
        simp [applyToggles, hcan]
      rw [hstep, applyToggles_frame enabled rest _ p.slug
        (fun r hr _ => hnd.1 r hr),
        lookupOption_setOption_self]
    · by_cases hq : q.canEnableForProjects = true
      · have hstep : applyToggles enabled (q :: rest) opts
            = applyToggles enabled rest
                (setOption q.slug (enabled.contains q.slug) opts) := by
          simp [applyToggles, hq]
        rw [hstep, ih _ hnd.2 hp']
      · have hstep : applyToggles enabled (q :: rest) opts
            = applyToggles enabled rest opts := by
          simp [applyToggles, hq]
        rw [hstep, ih _ hnd.2 hp']

/-- C10: on a POST by an authorized user, `manage_plugins` sets each
registered plugin's `enabled` option for the project to exactly whether
its slug appears in the submitted `plugin` list — but only for plugins
that can be enabled per project; the option of a plugin that cannot is
left unchanged. Registry slugs are assumed distinct. -/
theorem manage_plugins_post_toggles (user : User)
    (hasPermHook : Option Bool) (allPlugins : List Plugin)
    (enabled : List String) (requestPath : String) (project : Project)
    (opts : OptionStore)
    (hauth : (hasPermHook == some false && !user.hasPermChangeProject)
      = false)
    (hnodup : (allPlugins.map Plugin.slug).Nodup)
    (p : Plugin) (hp : p ∈ allPlugins) :
    (p.canEnableForProjects = true →
      lookupOption p.slug
          (manage_plugins user hasPermHook allPlugins (some enabled)
            requestPath project opts).options
        = some (enabled.contains p.slug)) ∧
    (p.canEnableForProjects = false →
      lookupOption p.slug
          (manage_plugins user hasPermHook allPlugins (some enabled)
            requestPath project opts).options
        = lookupOption p.slug opts) := by
  have hopts : (manage_plugins user hasPermHook allPlugins (some enabled)
      requestPath project opts).options
      = applyToggles enabled allPlugins opts := by
    simp [manage_plugins, hauth]
  constructor
  · intro hcan
    rw [hopts]
    exact applyToggles_sets enabled allPlugins opts p hnodup hp hcan
  · intro hcan
    rw [hopts]
    refine applyToggles_frame enabled allPlugins opts p.slug ?_
    intro q hq hqcan he
    have : q = p := List.inj_on_of_nodup_map hnodup hq hp he
    rw [this] at hqcan
    rw [hqcan] at hcan
    cases hcan

theorem manage_plugins_post_toggles_witness :
    (Plugin.canEnableForProjects ⟨"mail", "Mail", true, true, true⟩ = true →
      lookupOption "mail"
          (manage_plugins uAlice none
            [⟨"mail", "Mail", true, true, true⟩,
             ⟨"servers", "Servers", true, true, false⟩]
            (some ["mail"]) "/plugins" pAlpha [("servers", true)]).options
        = some (List.contains ["mail"] "mail")) ∧
    (Plugin.canEnableForProjects ⟨"mail", "Mail", true, true, true⟩ = false →
      lookupOption "mail"
          (manage_plugins uAlice none
            [⟨"mail", "Mail", true, true, true⟩,
             ⟨"servers", "Servers", true, true, false⟩]
            (some ["mail"]) "/plugins" pAlpha [("servers", true)]).options
        = lookupOption "mail" [("servers", true)]) :=
  manage_plugins_post_toggles uAlice none
    [⟨"mail", "Mail", true, true, true⟩,
     ⟨"servers", "Servers", true, true, false⟩]
    ["mail"] "/plugins" pAlpha [("servers", true)] (by decide) (by decide)
    ⟨"mail", "Mail", true, true, true⟩ (by decide)

end SentryProjects
